import Mathlib

set_option maxHeartbeats 1000000

/- Shallow embedding of src/blpapiComp.py, a wrapper over the Bloomberg Open
   API.  Vendor element trees, events and the session's event stream are
   modelled explicitly; vendor calls that can raise a Python exception are
   modelled in `Except Err`.  The session's event stream is an explicit
   argument `events : Nat → Event` (the value of the n-th `nextEvent()` call),
   and the unbounded `while True` polling loops are modelled with explicit
   fuel, returning `none` when the fuel runs out before the loop exits. -/

/-- Python exceptions that the modelled vendor calls can raise. -/
inductive Err where
  | notFound (name : String)
  | outOfRange
  | typeError
  | stopIteration
  | nameError (name : String)
  deriving DecidableEq, Repr

/-- A blpapi element tree: scalar strings (also used for dates), numeric
scalars, sequences of named sub-elements, and arrays of values. -/
inductive Elem where
  | str (s : String)
  | num (x : Int)
  | seq (fields : List (String × Elem))
  | arr (items : List Elem)

/-- `element.getElement(name)`: named sub-element lookup; raises when absent
or when the receiver is not a sequence. -/
def Elem.getElement : Elem → String → Except Err Elem
  | .seq fs, n =>
    match fs.lookup n with
    | some e => .ok e
    | none => .error (.notFound n)
  | _, n => .error (.notFound n)

/-- `element.getValueAsElement(i)`: index into an array value. -/
def Elem.getValueAsElement : Elem → Nat → Except Err Elem
  | .arr items, i =>
    match items[i]? with
    | some e => .ok e
    | none => .error .outOfRange
  | _, _ => .error .outOfRange

/-- String conversion of a scalar value. -/
def Elem.asString : Elem → Except Err String
  | .str s => .ok s
  | .num x => .ok (toString x)
  | _ => .error .typeError

/-- Float conversion of a scalar value (field values are modelled as
integers: the wrapper only moves them around, never computes with them). -/
def Elem.asFloat : Elem → Except Err Int
  | .num x => .ok x
  | _ => .error .typeError

/-- Datetime conversion of a scalar value (dates are modelled as strings). -/
def Elem.asDatetime : Elem → Except Err String
  | .str s => .ok s
  | _ => .error .typeError

/-- `element.getElementAsString(name)`. -/
def Elem.getElementAsString (e : Elem) (n : String) : Except Err String :=
  e.getElement n >>= Elem.asString

/-- `element.getElementAsFloat(name)`. -/
def Elem.getElementAsFloat (e : Elem) (n : String) : Except Err Int :=
  e.getElement n >>= Elem.asFloat

/-- `element.getElementAsDatetime(name)`. -/
def Elem.getElementAsDatetime (e : Elem) (n : String) : Except Err String :=
  e.getElement n >>= Elem.asDatetime

/-- `element.getValueAsString()`. -/
def Elem.getValueAsString : Elem → Except Err String
  | .str s => .ok s
  | .num x => .ok (toString x)
  | _ => .error .typeError

/-- `element.getValueAsFloat()`. -/
def Elem.getValueAsFloat : Elem → Except Err Int
  | .num x => .ok x
  | _ => .error .typeError

/-- `element.numValues()`: array length; a scalar or sequence holds one
value. -/
def Elem.numValues : Elem → Nat
  | .arr items => items.length
  | _ => 1

/-- `element.numElements()`: number of named sub-elements of a sequence. -/
def Elem.numElements : Elem → Nat
  | .seq fs => fs.length
  | _ => 0

/-- `element.getElement(j)` by position, together with `element.name()` of
the retrieved sub-element. -/
def Elem.getElementAt : Elem → Nat → Except Err (String × Elem)
  | .seq fs, j =>
    match fs[j]? with
    | some p => .ok p
    | none => .error .outOfRange
  | _, _ => .error .outOfRange

/-- `element.hasElement(name)`. -/
def Elem.hasElement : Elem → String → Bool
  | .seq fs, n => (fs.lookup n).isSome
  | _, _ => false

/-- `element.values()`: iteration over an array's values. -/
def Elem.values : Elem → List Elem
  | .arr items => items
  | e => [e]

/-- blpapi event types relevant to the wrapper. -/
inductive EventType where
  | RESPONSE
  | PARTIAL_RESPONSE
  | OTHER
  deriving DecidableEq, Repr

/-- A blpapi event: its type and its messages (element trees). -/
structure Event where
  eventType : EventType
  messages : List Elem

/-- `blpapi.event.MessageIterator(event).next()`: the first message of the
event; raises StopIteration when the event has no messages. -/
def Event.firstMessage (ev : Event) : Except Err Elem :=
  match ev.messages with
  | [] => .error .stopIteration
  | m :: _ => .ok m

/-- The `while True: event = self.session.nextEvent(); if ... RESPONSE:
break` loop shared by bdp, bdh and bsrch: scan the event stream from
position `i` for the first RESPONSE event, with explicit fuel. -/
def pollUntilResponse (events : Nat → Event) (i : Nat) : Nat → Option Event
  | 0 => none
  | fuel + 1 =>
    if (events i).eventType = EventType.RESPONSE then some (events i)
    else pollUntilResponse events (i + 1) fuel

/-- A Python value whose truthiness matters: `bdh` tests its
`adjustmentSplit` argument for truthiness, and `bdhOHLC` passes a string
into that positional slot. -/
inductive PyObj where
  | bool (b : Bool)
  | str (s : String)
  deriving DecidableEq, Repr

/-- Python truthiness of the modelled values. -/
def PyObj.truthy : PyObj → Bool
  | .bool b => b
  | .str s => s ≠ ""

/-- `bdh`'s `strData` argument may be a string or a list of strings; the
method normalises a string to a one-element list. -/
inductive StrOrList where
  | s (x : String)
  | l (xs : List String)
  deriving DecidableEq, Repr

/-- The `if type(strData) == str: strData = [strData]` normalisation. -/
def StrOrList.toList : StrOrList → List String
  | .s x => [x]
  | .l xs => xs

/-- A calendar date, as passed for `startdate` and `enddate`. -/
structure Date where
  year : Nat
  month : Nat
  day : Nat
  deriving DecidableEq, Repr

/-- Zero-padding to two digits. -/
def pad2 (n : Nat) : String :=
  if n < 10 then "0" ++ toString n else toString n

/-- Zero-padding to four digits. -/
def pad4 (n : Nat) : String :=
  if n < 10 then "000" ++ toString n
  else if n < 100 then "00" ++ toString n
  else if n < 1000 then "0" ++ toString n
  else toString n

/-- `date.strftime(%Y%m%d)`. -/
def Date.strftimeYmd (d : Date) : String :=
  pad4 d.year ++ pad2 d.month ++ pad2 d.day

/-- A vendor request as built by the wrapper: the service it was created
from, its request type, the `append`/`set` calls made on it in order, and
the appended override (fieldId, value) pairs. -/
structure Request where
  serviceName : String
  requestType : String
  settings : List (String × String)
  overrides : List (String × String)
  deriving DecidableEq, Repr

/-- The request built by `BLP2.bdp` (lines 43-55). -/
def bdpRequest (strSecurity strData strOverrideField strOverrideValue
    strOverrideField2 strOverrideValue2 : String) : Request :=
  { serviceName := "//BLP/refdata"
    requestType := "ReferenceDataRequest"
    settings := [("securities", strSecurity), ("fields", strData)]
    overrides :=
      (if strOverrideField ≠ "" then [(strOverrideField, strOverrideValue)] else [])
        ++ (if strOverrideField2 ≠ "" then [(strOverrideField2, strOverrideValue2)] else []) }

/-- The request built by `BLP2.bdh` (lines 74-85). -/
def bdhRequest (strSecurity : String) (strData : StrOrList) (startdate enddate : Date)
    (adjustmentSplit : PyObj) (periodicity : String) : Request :=
  { serviceName := "//BLP/refdata"
    requestType := "HistoricalDataRequest"
    settings :=
      [("securities", strSecurity)]
        ++ strData.toList.map (fun f => ("fields", f))
        ++ [("startDate", startdate.strftimeYmd),
            ("endDate", enddate.strftimeYmd),
            ("adjustmentSplit", if adjustmentSplit.truthy then "TRUE" else "FALSE"),
            ("periodicitySelection", periodicity)]
    overrides := [] }

/-- The request built by `BLP2.bsrch` (lines 118-119), created from the
`//BLP/exrsvc` service. -/
def bsrchRequest (domain : String) : Request :=
  { serviceName := "//BLP/exrsvc"
    requestType := "ExcelGetGridRequest"
    settings := [("Domain", domain)]
    overrides := [] }

/-- What `BLP2.bdp` prints on error and what it returns: the output string
and the lines printed. -/
structure BdpOutcome where
  output : String
  printed : List String
  deriving DecidableEq, Repr

/-- Line 65 of `BLP2.bdp`: extract the field value from the RESPONSE
event. -/
def bdpExtract (event : Event) (strData : String) : Except Err String := do
  let msg ← event.firstMessage
  let sd ← msg.getElement "securityData"
  let s0 ← sd.getValueAsElement 0
  let fd ← s0.getElement "fieldData"
  fd.getElementAsString strData

/-- Lines 64-71 of `BLP2.bdp`: the `try` block around the extraction, the
`#N/A` substitution, and the broad `except` that prints a diagnostic and
substitutes the placeholder string. -/
def bdpOutcome (strSecurity strData : String) (event : Event) : BdpOutcome :=
  match bdpExtract event strData with
  | .ok out => ⟨if out = "#N/A" then "None" else out, []⟩
  | .error _ =>
    ⟨"Error with api data field, i.g PX_LAST",
     ["error with " ++ strSecurity ++ " " ++ strData]⟩

/-- `BLP2.bdp`: build and send the request, poll for the RESPONSE event,
then extract.  Returns the request together with the outcome (`none` when
the fuel runs out before a RESPONSE event arrives). -/
def bdp (strSecurity strData strOverrideField strOverrideValue
    strOverrideField2 strOverrideValue2 : String)
    (events : Nat → Event) (fuel : Nat) : Request × Option BdpOutcome :=
  (bdpRequest strSecurity strData strOverrideField strOverrideValue
     strOverrideField2 strOverrideValue2,
   (pollUntilResponse events 0 fuel).map (bdpOutcome strSecurity strData))

/-- A pandas DataFrame as the wrapper builds it: a row index and labelled
columns; a cell of `none` is NaN. -/
structure Frame where
  index : List String
  columns : List (String × List (Option Int))
  deriving DecidableEq, Repr

/-- `frame.values.tolist()`: the rows of the frame, one list of cells per
index position. -/
def Frame.rows (fr : Frame) : List (List (Option Int)) :=
  (List.range fr.index.length).map (fun i => fr.columns.map (fun c => c.2.getD i none))

/-- `frame[field] = data`: replace the data of every column labelled
`field`. -/
def Frame.setCol (fr : Frame) (field : String) (data : List (Option Int)) : Frame :=
  ⟨fr.index, fr.columns.map (fun c => if c.1 = field then (c.1, data) else c)⟩

/-- What `BLP2.bdh` returns: the DataFrame, or (when `singleFrame` is true)
the list of values of the last row. -/
inductive BdhResult where
  | frame (fr : Frame)
  | row (xs : List (Option Int))
  deriving DecidableEq, Repr

/-- Whether a `BdhResult` is a DataFrame. -/
def BdhResult.isFrame : BdhResult → Bool
  | .frame _ => true
  | .row _ => false

/-- Lines 93-110 of `BLP2.bdh`: parse the RESPONSE event into a DataFrame
whose index is the dates of the `fieldData` rows and whose columns are the
requested fields; with `singleFrame` return the last row of
`output[strData].values.tolist()` instead (`x[-1]` raises IndexError on an
empty list).  The `replace` of the string `#N/A History` is a no-op on the
numeric cells the loop appends, and `to_datetime` keeps the parsed dates. -/
def bdhProcess (event : Event) (strData : List String) (singleFrame : Bool) :
    Except Err BdhResult := do
  let msg ← event.firstMessage
  let sd ← msg.getElement "securityData"
  let fieldDataArray ← sd.getElement "fieldData"
  let fieldDataList ← (List.range fieldDataArray.numValues).mapM
    (fun i => fieldDataArray.getValueAsElement i)
  let outDates ← fieldDataList.mapM (fun x => x.getElementAsDatetime "date")
  let cols ← strData.mapM (fun f => do
    let colData ← fieldDataList.mapM (fun x => x.getElementAsFloat f)
    pure (f, colData.map some))
  let output : Frame := ⟨outDates, cols⟩
  if singleFrame then
    match (Frame.rows output).getLast? with
    | some lastPrice => pure (.row lastPrice)
    | none => .error .outOfRange
  else
    pure (.frame output)

/-- `BLP2.bdh`: build and send the request, poll for the RESPONSE event,
then parse it.  Any exception of the parse propagates in the `Except`. -/
def bdh (strSecurity : String) (strData : StrOrList) (startdate enddate : Date)
    (adjustmentSplit : PyObj) (periodicity : String) (singleFrame : Bool)
    (events : Nat → Event) (fuel : Nat) :
    Request × Option (Except Err BdhResult) :=
  (bdhRequest strSecurity strData startdate enddate adjustmentSplit periodicity,
   (pollUntilResponse events 0 fuel).map
     (fun ev => bdhProcess ev strData.toList singleFrame))

/-- Lines 134-135: `BLP2.bdhOHLC` forwards to `bdh` positionally, so the
`periodicity` string lands in `bdh`'s `adjustmentSplit` parameter and
`periodicity` and `singleFrame` keep their defaults. -/
def bdhOHLC (strSecurity : String) (startdate enddate : Date) (periodicity : String)
    (events : Nat → Event) (fuel : Nat) :
    Request × Option (Except Err BdhResult) :=
  bdh strSecurity (.l ["PX_OPEN", "PX_HIGH", "PX_LOW", "PX_LAST"])
    startdate enddate (.str periodicity) "DAILY" false events fuel

/-- Innermost loop of `BLP2.bsrch`: `for f in v.getElement(DataFields).values()`
collecting `f.getElementAsString(StringValue)`. -/
def bsrchFields (acc : List String) : List Elem → Except Err (List String)
  | [] => pure acc
  | f :: rest => do
    let s ← f.getElementAsString "StringValue"
    bsrchFields (acc ++ [s]) rest

/-- Middle loop of `BLP2.bsrch`: `for v in msg.getElement(DataRecords).values()`. -/
def bsrchRecords (acc : List String) : List Elem → Except Err (List String)
  | [] => pure acc
  | v :: rest => do
    let dfs ← v.getElement "DataFields"
    let acc2 ← bsrchFields acc dfs.values
    bsrchRecords acc2 rest

/-- Outer loop of `BLP2.bsrch`: `for msg in event`. -/
def bsrchMsgs (acc : List String) : List Elem → Except Err (List String)
  | [] => pure acc
  | msg :: rest => do
    let dr ← msg.getElement "DataRecords"
    let acc2 ← bsrchRecords acc dr.values
    bsrchMsgs acc2 rest

/-- Lines 126-132 of `BLP2.bsrch`: collect the string values of the grid
into the list wrapped as a DataFrame. -/
def bsrchProcess (event : Event) : Except Err (List String) :=
  bsrchMsgs [] event.messages

/-- `BLP2.bsrch`: build and send the request, poll for the RESPONSE event,
then collect the grid data. -/
def bsrch (domain : String) (events : Nat → Event) (fuel : Nat) :
    Request × Option (Except Err (List String)) :=
  (bsrchRequest domain,
   (pollUntilResponse events 0 fuel).map bsrchProcess)

/- ---------------------------------------------------------------- BLPTS -/

/-- One `self.updateObservers(security=..., field=..., data=...)` invocation
made by `BLPTS.get`; every reachable invocation passes a DataFrame. -/
structure Call where
  security : String
  field : String
  data : Frame
  deriving DecidableEq, Repr

/-- The state of a `BLPTS` instance that `get` reads: whether the request
was built with a `startDate` keyword (HistoricalDataRequest) or without
(ReferenceDataRequest), and the stored securities and fields. -/
structure GetParams where
  hasStartDate : Bool
  securities : List String
  fields : List String
  deriving DecidableEq, Repr

/-- Lines 266-279 of `BLPTS.get`, one security of a ReferenceDataRequest
response: read `n_elmts` and the security name; with at least one
`fieldData` sub-element the first loop iteration reads `getElement(j)` and
its name and then calls `_dict_from_element`, a name defined nowhere in the
module, so Python raises `NameError`; with none it only prints
`Empty response received for ...` and notifies nobody. -/
def refSecurity (secElem : Elem) : Except Err (List Call) := do
  let fdEl ← secElem.getElement "fieldData"
  let nElmts := fdEl.numElements
  let sEl ← secElem.getElement "security"
  let _security ← sEl.getValueAsString
  if nElmts > 0 then do
    let _p ← fdEl.getElementAt 0
    .error (.nameError "_dict_from_element")
  else
    pure []

/-- The `for i in range(0, responseSize)` loop of the ReferenceDataRequest
branch. -/
def refLoop (sd : Elem) (acc : List Call) : List Nat → Except Err (List Call)
  | [] => pure acc
  | i :: rest => do
    let secElem ← sd.getValueAsElement i
    let cs ← refSecurity secElem
    refLoop sd (acc ++ cs) rest

/-- Lines 251-260 of `BLPTS.get`: the `for field in self.fields` loop of the
HistoricalDataRequest branch; each iteration fills one column of the frame
(NaN where the row lacks the field) and notifies the observers with the
frame as filled so far. -/
def histFields (security : String) (fieldDataList : List Elem) :
    Frame → List Call → List String → Except Err (Frame × List Call)
  | fr, calls, [] => pure (fr, calls)
  | fr, calls, field :: rest => do
    let data ← fieldDataList.mapM (fun row =>
      if row.hasElement field then do
        let e ← row.getElement field
        let v ← e.getValueAsFloat
        pure (some v)
      else
        pure (none : Option Int))
    let fr2 := fr.setCol field data
    histFields security fieldDataList fr2 (calls ++ [⟨security, field, fr2⟩]) rest

/-- Lines 243-262 of `BLPTS.get`, the HistoricalDataRequest branch body:
parse the security name, the `fieldData` rows and their dates, build the
frame column by column with a per-field notification each, then one final
notification with field `ALL` and the whole frame. -/
def histSecurity (fields : List String) (sd : Elem) : Except Err (List Call) := do
  let sEl ← sd.getElement "security"
  let security ← sEl.getValueAsString
  let fieldDataArray ← sd.getElement "fieldData"
  let fieldDataList ← (List.range fieldDataArray.numValues).mapM
    (fun i => fieldDataArray.getValueAsElement i)
  let dates ← fieldDataList.mapM (fun x => do
    let d ← x.getElement "date"
    d.getValueAsString)
  let init : Frame :=
    ⟨dates, fields.map (fun f => (f, List.replicate fieldDataList.length none))⟩
  let (fr, calls) ← histFields security fieldDataList init [] fields
  pure (calls ++ [⟨security, "ALL", fr⟩])

/-- The `for i in range(0, responseSize)` loop of the HistoricalDataRequest
branch; its body does not use the loop index. -/
def histLoop (fields : List String) (sd : Elem) (acc : List Call) :
    List Nat → Except Err (List Call)
  | [] => pure acc
  | _ :: rest => do
    let cs ← histSecurity fields sd
    histLoop fields sd (acc ++ cs) rest

/-- Lines 236-279 of `BLPTS.get`: process one RESPONSE or PARTIAL_RESPONSE
event, producing the observer notifications it makes. -/
def processEvent (p : GetParams) (event : Event) : Except Err (List Call) := do
  let msg ← event.firstMessage
  let sd ← msg.getElement "securityData"
  let responseSize := sd.numValues
  if p.hasStartDate then
    histLoop p.fields sd [] (List.range responseSize)
  else
    refLoop sd [] (List.range responseSize)

/-- Lines 234-282 of `BLPTS.get`: the polling loop.  Events that are
neither RESPONSE nor PARTIAL_RESPONSE are skipped; qualifying events are
processed (an exception escapes the loop); the loop breaks after a RESPONSE
event.  Returns the notifications made so far together with the outcome
(the function body has no `return` statement, so a normal exit returns
Python's `None`, modelled as `Unit`). -/
def getLoop (p : GetParams) (events : Nat → Event) :
    Nat → Nat → List Call → Option (List Call × Except Err Unit)
  | _, 0, _ => none
  | i, fuel + 1, acc =>
    if (events i).eventType = EventType.RESPONSE
        ∨ (events i).eventType = EventType.PARTIAL_RESPONSE then
      match processEvent p (events i) with
      | .error e => some (acc, .error e)
      | .ok calls =>
        if (events i).eventType = EventType.RESPONSE then
          some (acc ++ calls, .ok ())
        else
          getLoop p events (i + 1) fuel (acc ++ calls)
    else
      getLoop p events (i + 1) fuel acc

/-- `BLPTS.get`: run the polling loop on the event stream from the start. -/
def get (p : GetParams) (events : Nat → Event) (fuel : Nat) :
    Option (List Call × Except Err Unit) :=
  getLoop p events 0 fuel []

/-- `BLPTS.register` (lines 284-286): append the observer unless already
registered. -/
def register {α : Type} [DecidableEq α] (observer : α) (observers : List α) : List α :=
  if observer ∈ observers then observers else observers ++ [observer]

/-- `BLPTS.unregister` (lines 288-290): remove the observer when present. -/
def unregister {α : Type} [DecidableEq α] (observer : α) (observers : List α) : List α :=
  if observer ∈ observers then observers.erase observer else observers

/-- `BLPTS.unregisterAll` (lines 292-294): `del self.observers[:]`. -/
def unregisterAll {α : Type} (observers : List α) : List α :=
  match observers with
  | _ => []

/-- `BLPTS.updateObservers` (lines 296-298): call `observer.update` with the
same arguments for each registered observer in list order; the result is the
sequence of (observer, arguments) invocations made. -/
def updateObservers {α β : Type} (observers : List α) (args : β) : List (α × β) :=
  observers.map (fun observer => (observer, args))

/-- The condition under which `BLPTS.get`'s polling loop exits at stream
position `n`: a RESPONSE event arrives, or a PARTIAL_RESPONSE event whose
processing raises an exception (which escapes the loop). -/
def getTerminalAt (p : GetParams) (events : Nat → Event) (n : Nat) : Prop :=
  (events n).eventType = EventType.RESPONSE ∨
    ((events n).eventType = EventType.PARTIAL_RESPONSE ∧
      ∃ e, processEvent p (events n) = Except.error e)

/- ------------------------------------------------------- helper lemmas -/

theorem exceptBind_ok {ε α β : Type} {x : Except ε α} {f : α → Except ε β} {r : β} :
    x >>= f = Except.ok r ↔ ∃ a, x = Except.ok a ∧ f a = Except.ok r := by
  cases x <;> simp [Bind.bind, Except.bind]

theorem exceptBind_ok_left {ε α β : Type} (a : α) (f : α → Except ε β) :
    (Except.ok a : Except ε α) >>= f = f a := rfl

theorem exceptBind_error {ε α β : Type} {x : Except ε α} {f : α → Except ε β} {e : ε} :
    x >>= f = Except.error e ↔
      x = Except.error e ∨ ∃ a, x = Except.ok a ∧ f a = Except.error e := by
  cases x <;> simp [Bind.bind, Except.bind]

theorem exceptPure_ok {ε α : Type} {a r : α} :
    (pure a : Except ε α) = Except.ok r ↔ a = r := by
  simp [pure, Except.pure]

theorem exceptMap_ok {ε α β : Type} {g : α → β} {x : Except ε α} {r : β} :
    g <$> x = Except.ok r ↔ ∃ a, x = Except.ok a ∧ g a = r := by
  cases x <;> simp [Functor.map, Except.map]

/-- Success of `List.mapM` over `Except` is pointwise success. -/
theorem mapM_ok_forall2 {ε α β : Type} (f : α → Except ε β) :
    ∀ (xs : List α) (ys : List β),
      xs.mapM f = Except.ok ys ↔
        List.Forall₂ (fun x y => f x = Except.ok y) xs ys := by
  intro xs
  induction xs with
  | nil =>
    intro ys
    simp only [List.mapM_nil, exceptPure_ok, List.forall₂_nil_left_iff]
    exact eq_comm
  | cons x xs ih =>
    intro ys
    rw [List.mapM_cons]
    constructor
    · intro h
      rcases exceptBind_ok.mp h with ⟨y, hy, h2⟩
      rcases exceptMap_ok.mp h2 with ⟨ys2, hys2, h3⟩
      rcases h3 with rfl
      exact List.Forall₂.cons hy ((ih ys2).mp hys2)
    · intro h
      cases h with
      | cons hy hrest =>
        refine exceptBind_ok.mpr ⟨_, hy, ?_⟩
        exact exceptMap_ok.mpr ⟨_, (ih _).mpr hrest, rfl⟩

/-- From a column-wise `Forall₂` whose relation pins the label, the labels
of the produced columns are exactly the requested fields. -/
theorem forall2_map_fst {β : Type} {P : String → String × β → Prop}
    {fields : List String} {cols : List (String × β)}
    (h : List.Forall₂ (fun f c => c.1 = f ∧ P f c) fields cols) :
    cols.map Prod.fst = fields := by
  induction h with
  | nil => rfl
  | cons h1 _ ih => simp [h1.1, ih]

/-- Membership on the right of a `Forall₂` has a related witness on the
left. -/
theorem forall2_mem_right {α β : Type} {R : α → β → Prop} :
    ∀ {as : List α} {bs : List β}, List.Forall₂ R as bs →
      ∀ {b}, b ∈ bs → ∃ a, a ∈ as ∧ R a b := by
  intro as bs h
  induction h with
  | nil => intro b hb; cases hb
  | cons h1 _ ih =>
    intro b hb
    cases hb with
    | head => exact ⟨_, List.mem_cons_self _ _, h1⟩
    | tail _ hb2 =>
      rcases ih hb2 with ⟨a, ha, hr⟩
      exact ⟨a, List.mem_cons_of_mem _ ha, hr⟩

/-- If the polling loop's fuel suffices, a RESPONSE event occurs in the
stream. -/
theorem poll_exists_of_isSome (events : Nat → Event) :
    ∀ (fuel i : Nat), (pollUntilResponse events i fuel).isSome →
      ∃ n, (events (i + n)).eventType = EventType.RESPONSE := by
  intro fuel
  induction fuel with
  | zero => intro i h; simp [pollUntilResponse] at h
  | succ fuel ih =>
    intro i h
    by_cases hi : (events i).eventType = EventType.RESPONSE
    · exact ⟨0, by simpa using hi⟩
    · rw [pollUntilResponse, if_neg hi] at h
      rcases ih (i + 1) h with ⟨n, hn⟩
      exact ⟨n + 1, by rw [show i + (n + 1) = (i + 1) + n by omega]; exact hn⟩

/-- If a RESPONSE event occurs `n` positions ahead, fuel `n + 1` makes the
polling loop exit. -/
theorem poll_isSome_of (events : Nat → Event) :
    ∀ (n i : Nat), (events (i + n)).eventType = EventType.RESPONSE →
      (pollUntilResponse events i (n + 1)).isSome := by
  intro n
  induction n with
  | zero => intro i h; simp only [Nat.add_zero] at h; simp [pollUntilResponse, h]
  | succ n ih =>
    intro i h
    by_cases hi : (events i).eventType = EventType.RESPONSE
    · simp [pollUntilResponse, hi]
    · rw [pollUntilResponse, if_neg hi]
      exact ih (i + 1) (by rw [show (i + 1) + n = i + (n + 1) by omega]; exact h)

/-- The shared polling loop terminates on some fuel exactly when the stream
eventually yields a RESPONSE event. -/
theorem poll_terminates_iff (events : Nat → Event) :
    (∃ fuel, (pollUntilResponse events 0 fuel).isSome) ↔
      ∃ n, (events n).eventType = EventType.RESPONSE := by
  constructor
  · rintro ⟨fuel, h⟩
    simpa using poll_exists_of_isSome events fuel 0 h
  · rintro ⟨n, hn⟩
    exact ⟨n + 1, poll_isSome_of events n 0 (by simpa using hn)⟩

/-- If `BLPTS.get`'s loop exits within the fuel, a terminal position occurs
in the stream. -/
theorem getLoop_exists_of_isSome (p : GetParams) (events : Nat → Event) :
    ∀ (fuel i : Nat) (acc : List Call), (getLoop p events i fuel acc).isSome →
      ∃ n, getTerminalAt p events (i + n) := by
  intro fuel
  induction fuel with
  | zero => intro i acc h; simp [getLoop] at h
  | succ fuel ih =>
    intro i acc h
    by_cases hq : (events i).eventType = EventType.RESPONSE
        ∨ (events i).eventType = EventType.PARTIAL_RESPONSE
    · rw [getLoop, if_pos hq] at h
      cases hpe : processEvent p (events i) with
      | error e =>
        cases hq with
        | inl hR => exact ⟨0, Or.inl (by simpa using hR)⟩
        | inr hP => exact ⟨0, Or.inr ⟨by simpa using hP, e, by simpa using hpe⟩⟩
      | ok calls =>
        rw [hpe] at h
        dsimp only at h
        by_cases hR : (events i).eventType = EventType.RESPONSE
        · exact ⟨0, Or.inl (by simpa using hR)⟩
        · rw [if_neg hR] at h
          rcases ih (i + 1) (acc ++ calls) h with ⟨n, hn⟩
          exact ⟨n + 1, by rw [show i + (n + 1) = (i + 1) + n by omega]; exact hn⟩
    · rw [getLoop, if_neg hq] at h
      rcases ih (i + 1) acc h with ⟨n, hn⟩
      exact ⟨n + 1, by rw [show i + (n + 1) = (i + 1) + n by omega]; exact hn⟩

/-- If a terminal position occurs `n` ahead, fuel `n + 1` makes
`BLPTS.get`'s loop exit. -/
theorem getLoop_isSome_of (p : GetParams) (events : Nat → Event) :
    ∀ (n i : Nat) (acc : List Call), getTerminalAt p events (i + n) →
      (getLoop p events i (n + 1) acc).isSome := by
  intro n
  induction n with
  | zero =>
    intro i acc h
    simp only [Nat.add_zero] at h
    cases h with
    | inl hR =>
      rw [getLoop, if_pos (Or.inl hR)]
      cases hpe : processEvent p (events i) with
      | error e => simp
      | ok calls => dsimp only; rw [if_pos hR]; simp
    | inr hP =>
      rcases hP with ⟨hP, e, hpe⟩
      rw [getLoop, if_pos (Or.inr hP), hpe]
      simp
  | succ n ih =>
    intro i acc h
    have h2 : getTerminalAt p events ((i + 1) + n) := by
      rw [show (i + 1) + n = i + (n + 1) by omega]; exact h
    by_cases hR : (events i).eventType = EventType.RESPONSE
    · rw [getLoop, if_pos (Or.inl hR)]
      cases hpe : processEvent p (events i) with
      | error e => simp
      | ok calls => dsimp only; rw [if_pos hR]; simp
    · by_cases hP : (events i).eventType = EventType.PARTIAL_RESPONSE
      · rw [getLoop, if_pos (Or.inr hP)]
        cases hpe : processEvent p (events i) with
        | error e => simp
        | ok calls => dsimp only; rw [if_neg hR]; exact ih (i + 1) (acc ++ calls) h2
      · rw [getLoop, if_neg (by simp [hR, hP])]
        exact ih (i + 1) acc h2

/-- `BLPTS.get` terminates on some fuel exactly when a terminal position
occurs in the stream. -/
theorem get_terminates_iff (p : GetParams) (events : Nat → Event) :
    (∃ fuel, (get p events fuel).isSome) ↔ ∃ n, getTerminalAt p events n := by
  constructor
  · rintro ⟨fuel, h⟩
    simpa using getLoop_exists_of_isSome p events fuel 0 [] h
  · rintro ⟨n, hn⟩
    exact ⟨n + 1, getLoop_isSome_of p events n 0 [] (by simpa using hn)⟩

/-- A normally completed iteration of the ReferenceDataRequest branch makes
no observer notification. -/
theorem refSecurity_ok {secElem : Elem} {cs : List Call}
    (h : refSecurity secElem = Except.ok cs) : cs = [] := by
  simp only [refSecurity, exceptBind_ok] at h
  rcases h with ⟨fdEl, _, sEl, _, sec, _, h⟩
  by_cases h0 : fdEl.numElements > 0
  · rw [if_pos h0] at h
    rcases exceptBind_ok.mp h with ⟨p, _, hcon⟩
    exact absurd hcon (by simp)
  · rw [if_neg h0] at h
    exact (exceptPure_ok.mp h).symm

/-- The ReferenceDataRequest security loop adds no notifications. -/
theorem refLoop_ok {sd : Elem} :
    ∀ (l : List Nat) (acc r : List Call), refLoop sd acc l = Except.ok r → r = acc := by
  intro l
  induction l with
  | nil =>
    intro acc r h
    simp only [refLoop, exceptPure_ok] at h
    exact h.symm
  | cons i rest ih =>
    intro acc r h
    simp only [refLoop, exceptBind_ok] at h
    rcases h with ⟨secElem, _, cs, hcs, h⟩
    rcases refSecurity_ok hcs with rfl
    simpa using ih (acc ++ []) r h

/-- In reference mode a normally processed event makes no notification. -/
theorem processEvent_ref_ok {p : GetParams} (hp : p.hasStartDate = false)
    {ev : Event} {cs : List Call} (h : processEvent p ev = Except.ok cs) :
    cs = [] := by
  simp only [processEvent, hp, exceptBind_ok, Bool.false_eq_true, if_false] at h
  rcases h with ⟨msg, _, sd, _, h⟩
  exact refLoop_ok _ _ _ h

/-- In reference mode `BLPTS.get`'s loop never accumulates a notification
beyond what it started with. -/
theorem getLoop_ref_calls {p : GetParams} (hp : p.hasStartDate = false)
    (events : Nat → Event) :
    ∀ (fuel i : Nat) (acc calls : List Call) (res : Except Err Unit),
      getLoop p events i fuel acc = some (calls, res) → calls = acc := by
  intro fuel
  induction fuel with
  | zero => intro i acc calls res h; simp [getLoop] at h
  | succ fuel ih =>
    intro i acc calls res h
    by_cases hq : (events i).eventType = EventType.RESPONSE
        ∨ (events i).eventType = EventType.PARTIAL_RESPONSE
    · rw [getLoop, if_pos hq] at h
      cases hpe : processEvent p (events i) with
      | error e =>
        rw [hpe] at h
        dsimp only at h
        simp only [Option.some.injEq, Prod.mk.injEq] at h
        exact h.1.symm
      | ok cs =>
        rw [hpe] at h
        dsimp only at h
        rcases processEvent_ref_ok hp hpe with rfl
        by_cases hR : (events i).eventType = EventType.RESPONSE
        · rw [if_pos hR] at h
          simp only [Option.some.injEq, Prod.mk.injEq, List.append_nil] at h
          exact h.1.symm
        · rw [if_neg hR] at h
          simpa using ih (i + 1) (acc ++ []) calls res h
    · rw [getLoop, if_neg hq] at h
      exact ih (i + 1) acc calls res h

/-- With at least one `fieldData` sub-element, the ReferenceDataRequest
branch raises the `NameError` of the undefined `_dict_from_element`. -/
theorem refSecurity_nameError {secElem fdEl sEl : Elem} {sec : String}
    (hfd : secElem.getElement "fieldData" = Except.ok fdEl)
    (h0 : 0 < fdEl.numElements)
    (hsE : secElem.getElement "security" = Except.ok sEl)
    (hsec : sEl.getValueAsString = Except.ok sec) :
    refSecurity secElem = Except.error (Err.nameError "_dict_from_element") := by
  have hat : ∃ p, fdEl.getElementAt 0 = Except.ok p := by
    cases fdEl with
    | seq fs =>
      cases fs with
      | nil => simp [Elem.numElements] at h0
      | cons a as => exact ⟨a, by simp [Elem.getElementAt]⟩
    | str s => simp [Elem.numElements] at h0
    | num x => simp [Elem.numElements] at h0
    | arr l => simp [Elem.numElements] at h0
  rcases hat with ⟨p, hp⟩
  simp only [refSecurity, hfd, exceptBind_ok_left, hsE, hsec]
  rw [if_pos h0]
  simp only [hp, exceptBind_ok_left]

/-- Inversion of a successful `BLP2.bdh` parse (the `singleFrame = false`
path): the frame is built row by row from the `fieldData` array and column
by column from the requested fields. -/
theorem bdhProcess_frame_inv {event : Event} {fields : List String} {fr : Frame}
    (h : bdhProcess event fields false = Except.ok (BdhResult.frame fr)) :
    ∃ msg sd fda fdl,
      event.firstMessage = Except.ok msg ∧
      msg.getElement "securityData" = Except.ok sd ∧
      sd.getElement "fieldData" = Except.ok fda ∧
      List.Forall₂ (fun i row => fda.getValueAsElement i = Except.ok row)
        (List.range fda.numValues) fdl ∧
      List.Forall₂ (fun row d => row.getElementAsDatetime "date" = Except.ok d)
        fdl fr.index ∧
      List.Forall₂ (fun f c => c.1 = f ∧
          List.Forall₂
            (fun row cell => ∃ v, row.getElementAsFloat f = Except.ok v ∧ cell = some v)
            fdl c.2)
        fields fr.columns := by
  simp only [bdhProcess, exceptBind_ok, Bool.false_eq_true, if_false,
    exceptPure_ok] at h
  rcases h with ⟨msg, hmsg, sd, hsd, fda, hfda, fdl, hfdl, dates, hdates, cols, hcols, hfin⟩
  have hfr : fr = ⟨dates, cols⟩ := by
    injection hfin with h2
    exact h2.symm
  subst hfr
  refine ⟨msg, sd, fda, fdl, hmsg, hsd, hfda, ?_, ?_, ?_⟩
  · exact (mapM_ok_forall2 _ _ _).mp hfdl
  · exact (mapM_ok_forall2 _ _ _).mp hdates
  · have h1 := (mapM_ok_forall2 _ _ _).mp hcols
    refine h1.imp ?_
    intro f c hfc
    rcases exceptBind_ok.mp hfc with ⟨colData, hcd, hpure⟩
    rcases exceptPure_ok.mp hpure with rfl
    refine ⟨rfl, ?_⟩
    have h2 := (mapM_ok_forall2 _ _ _).mp hcd
    exact List.forall₂_map_right_iff.mpr (h2.imp (fun _ _ hb => ⟨_, hb, rfl⟩))



/-- `Option.map` does not change definedness. -/
theorem isSome_map {α β : Type} (f : α → β) (o : Option α) :
    (o.map f).isSome = o.isSome := by
  cases o <;> rfl

/-- Inversion of a successful `BLP2.bdh` parse on the `singleFrame = true`
path: the result is the last row of the very frame the `singleFrame = false`
path would return. -/
theorem bdhProcess_single_inv {event : Event} {fields : List String} {r : BdhResult}
    (h : bdhProcess event fields true = Except.ok r) :
    ∃ xs fr, r = BdhResult.row xs ∧
      bdhProcess event fields false = Except.ok (BdhResult.frame fr) ∧
      (Frame.rows fr).getLast? = some xs := by
  simp only [bdhProcess, exceptBind_ok] at h
  rcases h with ⟨msg, hmsg, sd, hsd, fda, hfda, fdl, hfdl, dates, hdates, cols, hcols, hfin⟩
  rw [if_pos trivial] at hfin
  cases hl : (Frame.rows ⟨dates, cols⟩).getLast? with
  | none =>
    rw [hl] at hfin
    simp at hfin
  | some xs =>
    rw [hl] at hfin
    dsimp only at hfin
    have hr : BdhResult.row xs = r := exceptPure_ok.mp hfin
    refine ⟨xs, ⟨dates, cols⟩, hr.symm, ?_, hl⟩
    simp only [bdhProcess, hmsg, exceptBind_ok_left, hsd, hfda, hfdl, hdates, hcols]
    rfl

/- ------------------------------------------------------ claim theorems -/

/-- C1: in `BLP2.bdp`, every exception raised while extracting the field
value is caught by the single broad catch, which prints a diagnostic
containing the security and field names and returns the placeholder string
`Error with api data field, i.g PX_LAST`; in `BLP2.bdh`, `BLP2.bsrch` and
`BLPTS.get` an exception raised while processing propagates to the caller
unchanged and uncaught. -/
theorem c1_error_handling :
    (∀ (strSecurity strData o1 o2 o3 o4 : String) (events : Nat → Event) (fuel : Nat)
        (ev : Event) (e : Err),
      pollUntilResponse events 0 fuel = some ev →
      bdpExtract ev strData = Except.error e →
      (bdp strSecurity strData o1 o2 o3 o4 events fuel).2 =
        some ⟨"Error with api data field, i.g PX_LAST",
              ["error with " ++ strSecurity ++ " " ++ strData]⟩) ∧
    (∀ (strSecurity : String) (strData : StrOrList) (startdate enddate : Date)
        (adjustmentSplit : PyObj) (periodicity : String) (singleFrame : Bool)
        (events : Nat → Event) (fuel : Nat) (ev : Event) (e : Err),
      pollUntilResponse events 0 fuel = some ev →
      bdhProcess ev strData.toList singleFrame = Except.error e →
      (bdh strSecurity strData startdate enddate adjustmentSplit periodicity singleFrame
        events fuel).2 = some (Except.error e)) ∧
    (∀ (domain : String) (events : Nat → Event) (fuel : Nat) (ev : Event) (e : Err),
      pollUntilResponse events 0 fuel = some ev →
      bsrchProcess ev = Except.error e →
      (bsrch domain events fuel).2 = some (Except.error e)) ∧
    (∀ (p : GetParams) (events : Nat → Event) (i fuel : Nat) (acc : List Call) (e : Err),
      ((events i).eventType = EventType.RESPONSE ∨
        (events i).eventType = EventType.PARTIAL_RESPONSE) →
      processEvent p (events i) = Except.error e →
      getLoop p events i (fuel + 1) acc = some (acc, Except.error e)) := by
  refine ⟨?_, ?_, ?_, ?_⟩
  · intro s d o1 o2 o3 o4 events fuel ev e hpoll hex
    simp [bdp, hpoll, bdpOutcome, hex]
  · intro s d sd ed adj per sf events fuel ev e hpoll herr
    simp [bdh, hpoll, herr]
  · intro dom events fuel ev e hpoll herr
    simp [bsrch, hpoll, herr]
  · intro p events i fuel acc e hq hpe
    rw [getLoop, if_pos hq, hpe]

/-- Witness for C1 at concrete inputs: a RESPONSE event with no messages
makes the extraction raise; bdp substitutes the placeholder and prints the
diagnostic, while bdh, bsrch and the get loop surface the exception. -/
theorem c1_error_handling_witness :
    (bdp "IBM US Equity" "PX_LAST" "" "" "" ""
        (fun _ => ⟨EventType.RESPONSE, []⟩) 1).2 =
      some ⟨"Error with api data field, i.g PX_LAST",
            ["error with " ++ "IBM US Equity" ++ " " ++ "PX_LAST"]⟩ ∧
    (bdh "SPX Index" (StrOrList.s "PX_LAST") ⟨2014, 1, 1⟩ ⟨2014, 1, 9⟩ (PyObj.bool false)
        "DAILY" false (fun _ => ⟨EventType.RESPONSE, []⟩) 1).2 =
      some (Except.error Err.stopIteration) ∧
    (bsrch "fi:EX" (fun _ => ⟨EventType.RESPONSE, [Elem.seq []]⟩) 1).2 =
      some (Except.error (Err.notFound "DataRecords")) ∧
    getLoop ⟨false, [], []⟩ (fun _ => ⟨EventType.RESPONSE, []⟩) 0 1 [] =
      some ([], Except.error Err.stopIteration) :=
  ⟨c1_error_handling.1 "IBM US Equity" "PX_LAST" "" "" "" "" _ 1
      ⟨EventType.RESPONSE, []⟩ Err.stopIteration rfl rfl,
   c1_error_handling.2.1 "SPX Index" (StrOrList.s "PX_LAST") ⟨2014, 1, 1⟩ ⟨2014, 1, 9⟩
      (PyObj.bool false) "DAILY" false _ 1 ⟨EventType.RESPONSE, []⟩ Err.stopIteration rfl rfl,
   c1_error_handling.2.2.1 "fi:EX" _ 1 ⟨EventType.RESPONSE, [Elem.seq []]⟩
      (Err.notFound "DataRecords") rfl rfl,
   c1_error_handling.2.2.2 ⟨false, [], []⟩ _ 0 0 [] Err.stopIteration (Or.inl rfl) rfl⟩

/-- C2 counterexample: `BLP2.bsrch` creates and sends a request whose type
is `ExcelGetGridRequest`, which is neither a Reference Data Request nor a
Historical Data Request, so BLP2 issues more than the two claimed request
types. -/
theorem c2_bsrch_request_type_counterexample :
    (bsrch "fi:EX" (fun _ => ⟨EventType.OTHER, []⟩) 0).1.requestType
        = "ExcelGetGridRequest" ∧
    "ExcelGetGridRequest" ≠ "ReferenceDataRequest" ∧
    "ExcelGetGridRequest" ≠ "HistoricalDataRequest" :=
  ⟨rfl, by decide, by decide⟩

/-- C2 amended: BLP2 issues exactly three vendor request types: `bdp` sends
a ReferenceDataRequest, `bdh` and `bdhOHLC` send a HistoricalDataRequest,
and `bsrch` sends an ExcelGetGridRequest. -/
theorem c2_request_types :
    (∀ (s d o1 o2 o3 o4 : String) (events : Nat → Event) (fuel : Nat),
      (bdp s d o1 o2 o3 o4 events fuel).1.requestType = "ReferenceDataRequest") ∧
    (∀ (s : String) (d : StrOrList) (sd ed : Date) (adj : PyObj) (per : String)
        (sf : Bool) (events : Nat → Event) (fuel : Nat),
      (bdh s d sd ed adj per sf events fuel).1.requestType = "HistoricalDataRequest") ∧
    (∀ (s : String) (sd ed : Date) (per : String) (events : Nat → Event) (fuel : Nat),
      (bdhOHLC s sd ed per events fuel).1.requestType = "HistoricalDataRequest") ∧
    (∀ (dom : String) (events : Nat → Event) (fuel : Nat),
      (bsrch dom events fuel).1.requestType = "ExcelGetGridRequest") :=
  ⟨fun _ _ _ _ _ _ _ _ => rfl, fun _ _ _ _ _ _ _ _ _ => rfl,
   fun _ _ _ _ _ _ => rfl, fun _ _ _ => rfl⟩

/-- C3 counterexample: with `singleFrame = True`, `BLP2.bdh` does not
return a two-dimensional labeled table: on a one-row response it returns
the last row of the table (a plain list of values). -/
theorem c3_singleframe_counterexample :
    (bdh "SPX Index" (StrOrList.s "PX_LAST") ⟨2014, 1, 1⟩ ⟨2014, 1, 9⟩ (PyObj.bool false)
        "DAILY" true
        (fun _ => ⟨EventType.RESPONSE,
          [Elem.seq [("securityData", Elem.seq [("fieldData",
            Elem.arr [Elem.seq [("date", Elem.str "2014-01-02"),
                                ("PX_LAST", Elem.num 1831)]])])]]⟩)
        1).2 = some (Except.ok (BdhResult.row [some 1831])) ∧
    (BdhResult.row [some 1831]).isFrame = false :=
  ⟨rfl, rfl⟩

/-- C3 amended: `bdp` returns a scalar string (the extracted value with the
`#N/A` substitution, or the error placeholder); `bdh` with
`singleFrame = false` returns a labeled table whose index is the dates of
the response rows and whose columns are the requested field names; `bdh`
with `singleFrame = true` instead returns the list of values of the last
row of that table. -/
theorem c3_output_shapes :
    (∀ (s d o1 o2 o3 o4 : String) (events : Nat → Event) (fuel : Nat) (out : BdpOutcome),
      (bdp s d o1 o2 o3 o4 events fuel).2 = some out →
      (∃ ev sv, pollUntilResponse events 0 fuel = some ev ∧
        bdpExtract ev d = Except.ok sv ∧
        out.output = (if sv = "#N/A" then "None" else sv)) ∨
      out.output = "Error with api data field, i.g PX_LAST") ∧
    (∀ (s : String) (d : StrOrList) (sd ed : Date) (adj : PyObj) (per : String)
        (events : Nat → Event) (fuel : Nat) (fr : Frame),
      (bdh s d sd ed adj per false events fuel).2 = some (Except.ok (BdhResult.frame fr)) →
      ∃ ev msg sdEl fda fdl, pollUntilResponse events 0 fuel = some ev ∧
        ev.firstMessage = Except.ok msg ∧
        msg.getElement "securityData" = Except.ok sdEl ∧
        sdEl.getElement "fieldData" = Except.ok fda ∧
        List.Forall₂ (fun i row => fda.getValueAsElement i = Except.ok row)
          (List.range fda.numValues) fdl ∧
        List.Forall₂ (fun row dt => Elem.getElementAsDatetime row "date" = Except.ok dt)
          fdl fr.index ∧
        fr.columns.map Prod.fst = d.toList) ∧
    (∀ (s : String) (d : StrOrList) (sd ed : Date) (adj : PyObj) (per : String)
        (events : Nat → Event) (fuel : Nat) (r : BdhResult),
      (bdh s d sd ed adj per true events fuel).2 = some (Except.ok r) →
      ∃ ev xs fr, pollUntilResponse events 0 fuel = some ev ∧
        r = BdhResult.row xs ∧
        bdhProcess ev d.toList false = Except.ok (BdhResult.frame fr) ∧
        (Frame.rows fr).getLast? = some xs) := by
  refine ⟨?_, ?_, ?_⟩
  · intro s d o1 o2 o3 o4 events fuel out h
    rcases Option.map_eq_some'.mp h with ⟨ev, hev, hout⟩
    cases hx : bdpExtract ev d with
    | ok sv =>
      refine Or.inl ⟨ev, sv, hev, hx, ?_⟩
      rw [← hout]
      simp [bdpOutcome, hx]
    | error e =>
      refine Or.inr ?_
      rw [← hout]
      simp [bdpOutcome, hx]
  · intro s d sd ed adj per events fuel fr h
    rcases Option.map_eq_some'.mp h with ⟨ev, hev, hpr⟩
    rcases bdhProcess_frame_inv hpr with ⟨msg, sdE, fda, fdl, hmsg, hsdE, hfda, hrows, hdates, hcols⟩
    exact ⟨ev, msg, sdE, fda, fdl, hev, hmsg, hsdE, hfda, hrows, hdates, forall2_map_fst hcols⟩
  · intro s d sd ed adj per events fuel r h
    rcases Option.map_eq_some'.mp h with ⟨ev, hev, hpr⟩
    rcases bdhProcess_single_inv hpr with ⟨xs, fr, hr, hfalse, hlast⟩
    exact ⟨ev, xs, fr, hev, hr, hfalse, hlast⟩

/-- Witness for C3 at concrete inputs: a reference response gives bdp a
scalar string, and a one-row historical response gives bdh a one-row table
(`singleFrame = false`) whose last row is the `singleFrame = true` result. -/
theorem c3_output_shapes_witness :
    ((bdp "IBM US Equity" "PX_LAST" "" "" "" ""
        (fun _ => ⟨EventType.RESPONSE,
          [Elem.seq [("securityData", Elem.arr [Elem.seq [("fieldData",
            Elem.seq [("PX_LAST", Elem.str "100")])]])]]⟩) 1).2 =
      some ⟨"100", []⟩ ∧
      ((∃ ev sv, pollUntilResponse
            (fun _ => (⟨EventType.RESPONSE,
              [Elem.seq [("securityData", Elem.arr [Elem.seq [("fieldData",
                Elem.seq [("PX_LAST", Elem.str "100")])]])]]⟩ : Event)) 0 1 = some ev ∧
          bdpExtract ev "PX_LAST" = Except.ok sv ∧
          (⟨"100", []⟩ : BdpOutcome).output = (if sv = "#N/A" then "None" else sv)) ∨
        (⟨"100", []⟩ : BdpOutcome).output = "Error with api data field, i.g PX_LAST")) ∧
    ((bdh "SPX Index" (StrOrList.s "PX_LAST") ⟨2014, 1, 1⟩ ⟨2014, 1, 9⟩ (PyObj.bool false)
        "DAILY" true
        (fun _ => ⟨EventType.RESPONSE,
          [Elem.seq [("securityData", Elem.seq [("fieldData",
            Elem.arr [Elem.seq [("date", Elem.str "2014-01-02"),
                                ("PX_LAST", Elem.num 1831)]])])]]⟩) 1).2 =
      some (Except.ok (BdhResult.row [some 1831])) ∧
      ∃ ev xs fr, pollUntilResponse
          (fun _ => (⟨EventType.RESPONSE,
            [Elem.seq [("securityData", Elem.seq [("fieldData",
              Elem.arr [Elem.seq [("date", Elem.str "2014-01-02"),
                                  ("PX_LAST", Elem.num 1831)]])])]]⟩ : Event)) 0 1 = some ev ∧
        BdhResult.row [some 1831] = BdhResult.row xs ∧
        bdhProcess ev [("PX_LAST" : String)] false = Except.ok (BdhResult.frame fr) ∧
        (Frame.rows fr).getLast? = some xs) :=
  ⟨⟨rfl, c3_output_shapes.1 "IBM US Equity" "PX_LAST" "" "" "" "" _ 1 ⟨"100", []⟩ rfl⟩,
   ⟨rfl, c3_output_shapes.2.2 "SPX Index" (StrOrList.s "PX_LAST") ⟨2014, 1, 1⟩ ⟨2014, 1, 9⟩
      (PyObj.bool false) "DAILY" _ 1 (BdhResult.row [some 1831]) rfl⟩⟩

/-- C4: whenever BLPTS notifies observers, `updateObservers` calls the
update method of every registered observer in list order (which is
registration order: `register` appends a new observer at the end), passes
each the same arguments, and notifies no unregistered observer. -/
theorem c4_update_observers :
    (∀ (α β : Type) (observers : List α) (args : β),
      (updateObservers observers args).map Prod.fst = observers) ∧
    (∀ (α β : Type) (observers : List α) (args : β) (c : α × β),
      c ∈ updateObservers observers args → c.2 = args ∧ c.1 ∈ observers) ∧
    (∀ (α : Type) [DecidableEq α] (observers : List α) (o : α),
      o ∉ observers → register o observers = observers ++ [o]) := by
  refine ⟨?_, ?_, ?_⟩
  · intro α β observers args
    have hid : (Prod.fst ∘ fun observer : α => (observer, args)) = id := rfl
    rw [updateObservers, List.map_map, hid, List.map_id]
  · intro α β observers args c hc
    simp only [updateObservers, List.mem_map] at hc
    rcases hc with ⟨o, ho, rfl⟩
    exact ⟨rfl, ho⟩
  · intro α _ observers o ho
    simp [register, ho]

/-- Witness for C4 at concrete inputs. -/
theorem c4_update_observers_witness :
    (updateObservers [10, 20] 7).map Prod.fst = [10, 20] ∧
    (((20, 7) : Nat × Nat).2 = 7 ∧ ((20, 7) : Nat × Nat).1 ∈ [10, 20]) ∧
    register 30 [10, 20] = [10, 20] ++ [30] :=
  ⟨c4_update_observers.1 Nat Nat [10, 20] 7,
   c4_update_observers.2.1 Nat Nat [10, 20] 7 (20, 7) (by simp [updateObservers]),
   c4_update_observers.2.2 Nat [10, 20] 30 (by decide)⟩

/-- C5: `BLPTS.get` has no return statement, so whatever it returns
normally is Python's `None` and carries no data; the parsed rows are
delivered through the observer notifications, each processed security
ending with a notification carrying the whole parsed frame under field
`ALL`. -/
theorem c5_get_dispatch :
    (∀ (p : GetParams) (events : Nat → Event) (fuel : Nat) (calls : List Call)
        (res : Except Err Unit),
      get p events fuel = some (calls, res) →
      res = Except.ok () ∨ ∃ e, res = Except.error e) ∧
    (∀ (fields : List String) (sd : Elem) (calls : List Call),
      histSecurity fields sd = Except.ok calls →
      ∃ security fr, calls.getLast? = some ⟨security, "ALL", fr⟩) := by
  refine ⟨?_, ?_⟩
  · intro p events fuel calls res _
    cases res with
    | ok u => cases u; exact Or.inl rfl
    | error e => exact Or.inr ⟨e, rfl⟩
  · intro fields sd calls h
    simp only [histSecurity, exceptBind_ok, exceptPure_ok] at h
    rcases h with ⟨sEl, _, security, _, fda, _, fdl, _, dates, _, frcalls, _, hfin⟩
    rw [← hfin]
    exact ⟨security, frcalls.1, List.getLast?_concat _⟩

/-- Witness for C5 at a concrete historical run. -/
theorem c5_get_dispatch_witness :
    (get ⟨true, ["SPX Index"], ["PX_LAST"]⟩
        (fun _ => ⟨EventType.RESPONSE, [Elem.seq [("securityData",
          Elem.seq [("security", Elem.str "SPX Index"), ("fieldData",
            Elem.arr [Elem.seq [("date", Elem.str "2014-01-02"),
                                ("PX_LAST", Elem.num 1831)]])])]]⟩) 1 =
      some ([⟨"SPX Index", "PX_LAST", ⟨["2014-01-02"], [("PX_LAST", [some 1831])]⟩⟩,
             ⟨"SPX Index", "ALL", ⟨["2014-01-02"], [("PX_LAST", [some 1831])]⟩⟩],
            Except.ok ()) ∧
      (Except.ok () = (Except.ok () : Except Err Unit) ∨
        ∃ e, (Except.ok () : Except Err Unit) = Except.error e)) ∧
    (histSecurity ["PX_LAST"] (Elem.seq [("security", Elem.str "SPX Index"), ("fieldData",
        Elem.arr [Elem.seq [("date", Elem.str "2014-01-02"),
                            ("PX_LAST", Elem.num 1831)]])]) =
      Except.ok [⟨"SPX Index", "PX_LAST", ⟨["2014-01-02"], [("PX_LAST", [some 1831])]⟩⟩,
                 ⟨"SPX Index", "ALL", ⟨["2014-01-02"], [("PX_LAST", [some 1831])]⟩⟩] ∧
      ∃ security fr,
        ([⟨"SPX Index", "PX_LAST", ⟨["2014-01-02"], [("PX_LAST", [some 1831])]⟩⟩,
          ⟨"SPX Index", "ALL", ⟨["2014-01-02"], [("PX_LAST", [some 1831])]⟩⟩]
            : List Call).getLast? = some ⟨security, "ALL", fr⟩) :=
  ⟨⟨rfl, c5_get_dispatch.1 ⟨true, ["SPX Index"], ["PX_LAST"]⟩
      (fun _ => ⟨EventType.RESPONSE, [Elem.seq [("securityData",
        Elem.seq [("security", Elem.str "SPX Index"), ("fieldData",
          Elem.arr [Elem.seq [("date", Elem.str "2014-01-02"),
                              ("PX_LAST", Elem.num 1831)]])])]]⟩) 1
      [⟨"SPX Index", "PX_LAST", ⟨["2014-01-02"], [("PX_LAST", [some 1831])]⟩⟩,
       ⟨"SPX Index", "ALL", ⟨["2014-01-02"], [("PX_LAST", [some 1831])]⟩⟩]
      (Except.ok ()) rfl⟩,
   ⟨rfl, c5_get_dispatch.2 ["PX_LAST"]
      (Elem.seq [("security", Elem.str "SPX Index"), ("fieldData",
        Elem.arr [Elem.seq [("date", Elem.str "2014-01-02"),
                            ("PX_LAST", Elem.num 1831)]])])
      [⟨"SPX Index", "PX_LAST", ⟨["2014-01-02"], [("PX_LAST", [some 1831])]⟩⟩,
       ⟨"SPX Index", "ALL", ⟨["2014-01-02"], [("PX_LAST", [some 1831])]⟩⟩] rfl⟩⟩

/-- C6 counterexample: the stream is constantly one PARTIAL_RESPONSE event
with no messages, so it never yields a RESPONSE event; yet `BLPTS.get`
terminates on fuel 1, because processing the partial event raises
(StopIteration from the message iterator) and the exception exits the
loop. -/
theorem c6_partial_error_counterexample :
    get ⟨false, [], []⟩ (fun _ => ⟨EventType.PARTIAL_RESPONSE, []⟩) 1 =
      some ([], Except.error Err.stopIteration) ∧
    (⟨EventType.PARTIAL_RESPONSE, []⟩ : Event).eventType ≠ EventType.RESPONSE :=
  ⟨rfl, by decide⟩

/-- C6 amended: the polling loops of `bdp`, `bdh` and `bsrch` terminate on
some fuel exactly when the stream eventually yields a RESPONSE event; the
loop of `BLPTS.get` terminates exactly when the stream eventually yields a
RESPONSE event or a PARTIAL_RESPONSE event whose processing raises an
exception.  No loop applies a timeout, retry limit, or cancellation: on a
stream without such a position the equivalences show the loop never
terminates. -/
theorem c6_termination :
    (∀ (s d o1 o2 o3 o4 : String) (events : Nat → Event),
      (∃ fuel, ((bdp s d o1 o2 o3 o4 events fuel).2).isSome) ↔
        ∃ n, (events n).eventType = EventType.RESPONSE) ∧
    (∀ (s : String) (d : StrOrList) (sd ed : Date) (adj : PyObj) (per : String)
        (sf : Bool) (events : Nat → Event),
      (∃ fuel, ((bdh s d sd ed adj per sf events fuel).2).isSome) ↔
        ∃ n, (events n).eventType = EventType.RESPONSE) ∧
    (∀ (dom : String) (events : Nat → Event),
      (∃ fuel, ((bsrch dom events fuel).2).isSome) ↔
        ∃ n, (events n).eventType = EventType.RESPONSE) ∧
    (∀ (p : GetParams) (events : Nat → Event),
      (∃ fuel, (get p events fuel).isSome) ↔ ∃ n, getTerminalAt p events n) := by
  refine ⟨?_, ?_, ?_, ?_⟩
  · intro s d o1 o2 o3 o4 events
    have he : ∀ fuel, ((bdp s d o1 o2 o3 o4 events fuel).2).isSome
        = (pollUntilResponse events 0 fuel).isSome := fun fuel => isSome_map _ _
    simp only [he]
    exact poll_terminates_iff events
  · intro s d sd ed adj per sf events
    have he : ∀ fuel, ((bdh s d sd ed adj per sf events fuel).2).isSome
        = (pollUntilResponse events 0 fuel).isSome := fun fuel => isSome_map _ _
    simp only [he]
    exact poll_terminates_iff events
  · intro dom events
    have he : ∀ fuel, ((bsrch dom events fuel).2).isSome
        = (pollUntilResponse events 0 fuel).isSome := fun fuel => isSome_map _ _
    simp only [he]
    exact poll_terminates_iff events
  · intro p events
    exact get_terminates_iff p events

/-- C7: a table successfully built by `BLP2.bdh` has exactly one row per
element of the response's `fieldData` array (the rows, in order, are those
elements, and the index has one date per row), exactly one column per
requested field (in order), and every cell holds the corresponding row's
value for that field. -/
theorem c7_bdh_table (strSecurity : String) (strData : StrOrList) (startdate enddate : Date)
    (adjustmentSplit : PyObj) (periodicity : String) (events : Nat → Event) (fuel : Nat)
    (fr : Frame)
    (h : (bdh strSecurity strData startdate enddate adjustmentSplit periodicity false
        events fuel).2 = some (Except.ok (BdhResult.frame fr))) :
    ∃ ev msg sd fda fdl,
      pollUntilResponse events 0 fuel = some ev ∧
      ev.firstMessage = Except.ok msg ∧
      msg.getElement "securityData" = Except.ok sd ∧
      sd.getElement "fieldData" = Except.ok fda ∧
      fr.index.length = fda.numValues ∧
      fr.columns.map Prod.fst = strData.toList ∧
      List.Forall₂ (fun i row => fda.getValueAsElement i = Except.ok row)
        (List.range fda.numValues) fdl ∧
      List.Forall₂ (fun f c => c.1 = f ∧
          List.Forall₂
            (fun row cell => ∃ v, row.getElementAsFloat f = Except.ok v ∧ cell = some v)
            fdl c.2)
        strData.toList fr.columns := by
  rcases Option.map_eq_some'.mp h with ⟨ev, hev, hpr⟩
  rcases bdhProcess_frame_inv hpr with ⟨msg, sd, fda, fdl, hmsg, hsd, hfda, hrows, hdates, hcols⟩
  refine ⟨ev, msg, sd, fda, fdl, hev, hmsg, hsd, hfda, ?_, forall2_map_fst hcols, hrows, hcols⟩
  have h1 := hrows.length_eq
  have h2 := hdates.length_eq
  rw [List.length_range] at h1
  omega

/-- Witness for C7 on a concrete one-row, one-field historical response. -/
theorem c7_bdh_table_witness :
    (bdh "SPX Index" (StrOrList.s "PX_LAST") ⟨2014, 1, 1⟩ ⟨2014, 1, 9⟩ (PyObj.bool false)
        "DAILY" false
        (fun _ => ⟨EventType.RESPONSE,
          [Elem.seq [("securityData", Elem.seq [("fieldData",
            Elem.arr [Elem.seq [("date", Elem.str "2014-01-02"),
                                ("PX_LAST", Elem.num 1831)]])])]]⟩) 1).2 =
      some (Except.ok (BdhResult.frame ⟨["2014-01-02"], [("PX_LAST", [some 1831])]⟩)) ∧
    (∃ ev msg sd fda fdl,
      pollUntilResponse
        (fun _ => (⟨EventType.RESPONSE,
          [Elem.seq [("securityData", Elem.seq [("fieldData",
            Elem.arr [Elem.seq [("date", Elem.str "2014-01-02"),
                                ("PX_LAST", Elem.num 1831)]])])]]⟩ : Event)) 0 1 = some ev ∧
      ev.firstMessage = Except.ok msg ∧
      msg.getElement "securityData" = Except.ok sd ∧
      sd.getElement "fieldData" = Except.ok fda ∧
      (⟨["2014-01-02"], [("PX_LAST", [some 1831])]⟩ : Frame).index.length = fda.numValues ∧
      (⟨["2014-01-02"], [("PX_LAST", [some 1831])]⟩ : Frame).columns.map Prod.fst
        = (StrOrList.s "PX_LAST").toList ∧
      List.Forall₂ (fun i row => fda.getValueAsElement i = Except.ok row)
        (List.range fda.numValues) fdl ∧
      List.Forall₂ (fun f c => c.1 = f ∧
          List.Forall₂
            (fun row cell => ∃ v, row.getElementAsFloat f = Except.ok v ∧ cell = some v)
            fdl c.2)
        (StrOrList.s "PX_LAST").toList
        (⟨["2014-01-02"], [("PX_LAST", [some 1831])]⟩ : Frame).columns) :=
  ⟨rfl,
   c7_bdh_table "SPX Index" (StrOrList.s "PX_LAST") ⟨2014, 1, 1⟩ ⟨2014, 1, 9⟩
     (PyObj.bool false) "DAILY"
     (fun _ => ⟨EventType.RESPONSE,
       [Elem.seq [("securityData", Elem.seq [("fieldData",
         Elem.arr [Elem.seq [("date", Elem.str "2014-01-02"),
                             ("PX_LAST", Elem.num 1831)]])])]]⟩) 1
     ⟨["2014-01-02"], [("PX_LAST", [some 1831])]⟩ rfl⟩

/-- C8: in a reference-data (no startDate) run of `BLPTS.get`, a security
with at least one `fieldData` sub-element makes the parsing branch raise
`NameError` on the undefined name `_dict_from_element`, and no observer is
ever notified in reference mode (the notification set stays empty), so in
particular none is notified for that security. -/
theorem c8_reference_name_error :
    (∀ (secElem fdEl sEl : Elem) (sec : String),
      secElem.getElement "fieldData" = Except.ok fdEl →
      0 < fdEl.numElements →
      secElem.getElement "security" = Except.ok sEl →
      sEl.getValueAsString = Except.ok sec →
      refSecurity secElem = Except.error (Err.nameError "_dict_from_element")) ∧
    (∀ (p : GetParams) (events : Nat → Event) (fuel : Nat) (calls : List Call)
        (res : Except Err Unit),
      p.hasStartDate = false →
      get p events fuel = some (calls, res) → calls = []) := by
  refine ⟨?_, ?_⟩
  · intro secElem fdEl sEl sec h1 h2 h3 h4
    exact refSecurity_nameError h1 h2 h3 h4
  · intro p events fuel calls res hp h
    exact getLoop_ref_calls hp events fuel 0 [] calls res h

/-- Witness for C8 on a concrete reference response with one populated
security. -/
theorem c8_reference_name_error_witness :
    refSecurity (Elem.seq [("security", Elem.str "IBM US Equity"),
        ("fieldData", Elem.seq [("PX_LAST", Elem.num 100)])]) =
      Except.error (Err.nameError "_dict_from_element") ∧
    get ⟨false, ["IBM US Equity"], ["PX_LAST"]⟩
        (fun _ => ⟨EventType.PARTIAL_RESPONSE, [Elem.seq [("securityData",
          Elem.arr [Elem.seq [("security", Elem.str "IBM US Equity"),
            ("fieldData", Elem.seq [("PX_LAST", Elem.num 100)])]])]]⟩) 1 =
      some ([], Except.error (Err.nameError "_dict_from_element")) ∧
    ([] : List Call) = [] :=
  ⟨c8_reference_name_error.1
      (Elem.seq [("security", Elem.str "IBM US Equity"),
        ("fieldData", Elem.seq [("PX_LAST", Elem.num 100)])])
      (Elem.seq [("PX_LAST", Elem.num 100)]) (Elem.str "IBM US Equity") "IBM US Equity"
      rfl (by decide) rfl rfl,
   rfl,
   c8_reference_name_error.2 ⟨false, ["IBM US Equity"], ["PX_LAST"]⟩
      (fun _ => ⟨EventType.PARTIAL_RESPONSE, [Elem.seq [("securityData",
        Elem.arr [Elem.seq [("security", Elem.str "IBM US Equity"),
          ("fieldData", Elem.seq [("PX_LAST", Elem.num 100)])]])]]⟩) 1
      [] (Except.error (Err.nameError "_dict_from_element")) rfl rfl⟩

/-- C9: `BLP2.bdhOHLC` passes its `periodicity` argument positionally into
`bdh`'s `adjustmentSplit` parameter, so the request it sends always has
`periodicitySelection` set to `DAILY`, and has `adjustmentSplit` set to
`TRUE` exactly when the `periodicity` argument is truthy (a non-empty
string). -/
theorem c9_bdhohlc_arguments (strSecurity : String) (startdate enddate : Date)
    (periodicity : String) (events : Nat → Event) (fuel : Nat) :
    ((bdhOHLC strSecurity startdate enddate periodicity events fuel).1.settings.lookup
      "periodicitySelection" = some "DAILY") ∧
    ((bdhOHLC strSecurity startdate enddate periodicity events fuel).1.settings.lookup
      "adjustmentSplit" = some "TRUE" ↔ periodicity ≠ "") := by
  constructor
  · rfl
  · have hl : (bdhOHLC strSecurity startdate enddate periodicity events fuel).1.settings.lookup
        "adjustmentSplit"
        = some (if (PyObj.str periodicity).truthy then "TRUE" else "FALSE") := rfl
    rw [hl]
    by_cases hper : periodicity = ""
    · subst hper
      simp [PyObj.truthy]
    · have ht : (PyObj.str periodicity).truthy = true := by
        simp [PyObj.truthy, hper]
      rw [if_pos ht]
      simp [hper]

/-- C10: the BLPTS observer list never holds duplicates: it starts empty,
`register` and `unregister` preserve `Nodup` and `unregisterAll` empties
the list; `register` of an already registered observer is a no-op,
`unregister` of an absent observer is a no-op, and on a duplicate-free list
`unregister` removes exactly the given observer (the observer is gone and
every other element's membership is unchanged). -/
theorem c10_observer_invariants (α : Type) [DecidableEq α] :
    (∀ (l : List α) (o : α), l.Nodup → (register o l).Nodup) ∧
    (∀ (l : List α) (o : α), l.Nodup → (unregister o l).Nodup) ∧
    (∀ l : List α, (unregisterAll l).Nodup) ∧
    (∀ (l : List α) (o : α), o ∈ l → register o l = l) ∧
    (∀ (l : List α) (o : α), o ∉ l → unregister o l = l) ∧
    (∀ (l : List α) (o : α), l.Nodup → o ∉ unregister o l) ∧
    (∀ (l : List α) (o x : α), l.Nodup → x ≠ o → (x ∈ unregister o l ↔ x ∈ l)) ∧
    (∀ l : List α, unregisterAll l = []) := by
  refine ⟨?_, ?_, ?_, ?_, ?_, ?_, ?_, ?_⟩
  · intro l o h
    rw [register]
    split_ifs with ho
    · exact h
    · rw [← List.concat_eq_append]
      exact List.Nodup.concat ho h
  · intro l o h
    rw [unregister]
    split_ifs with ho
    · exact h.erase o
    · exact h
  · intro l
    simp [unregisterAll]
  · intro l o ho
    rw [register, if_pos ho]
  · intro l o ho
    rw [unregister, if_neg ho]
  · intro l o h
    rw [unregister]
    split_ifs with ho
    · exact h.not_mem_erase
    · exact ho
  · intro l o x h hx
    rw [unregister]
    split_ifs with ho
    · rw [h.mem_erase_iff]
      simp [hx]
    · exact Iff.rfl
  · intro l
    rfl

/-- Witness for C10 at concrete lists of numbers. -/
theorem c10_observer_invariants_witness :
    (register 3 [1, 2]).Nodup ∧ (unregister 1 [1, 2]).Nodup ∧
    (unregisterAll ([1, 2] : List Nat)).Nodup ∧ register 1 [1, 2] = [1, 2] ∧
    unregister 3 [1, 2] = [1, 2] ∧ 1 ∉ unregister 1 [1, 2] ∧
    (2 ∈ unregister 1 [1, 2] ↔ 2 ∈ [1, 2]) ∧ unregisterAll ([1, 2] : List Nat) = [] :=
  ⟨(c10_observer_invariants Nat).1 [1, 2] 3 (by decide),
   (c10_observer_invariants Nat).2.1 [1, 2] 1 (by decide),
   (c10_observer_invariants Nat).2.2.1 [1, 2],
   (c10_observer_invariants Nat).2.2.2.1 [1, 2] 1 (by decide),
   (c10_observer_invariants Nat).2.2.2.2.1 [1, 2] 3 (by decide),
   (c10_observer_invariants Nat).2.2.2.2.2.1 [1, 2] 1 (by decide),
   (c10_observer_invariants Nat).2.2.2.2.2.2.1 [1, 2] 1 2 (by decide) (by decide),
   (c10_observer_invariants Nat).2.2.2.2.2.2.2 [1, 2]⟩
